import Mathlib

/-!
Shallow embedding of the SnapCam signaling server (`server/index.js`) and the
endpoint-side negotiation logic shared by the laptop page and the mobile page
(ICE candidate queue, offer-in-flight guard, quality selection), together with
proofs of the specified properties.

Conventions of the embedding:
* The Socket.io event loop runs each handler to completion, so every inbound
  event is one atomic step of a transition system.
* JS `undefined` slots become `Option`; socket ids are nonempty strings, so a
  JS truthiness test on a slot (`state.laptopId && ...`) becomes `isSome`.
* Maps (`rooms`, per-socket data) become functions updated pointwise; a
  `Map.delete` sets the entry back to `none`.
-/

namespace CloneCam

/-- A JavaScript value as far as the server's payload validation observes it:
the `join` handler distinguishes strings (and the empty string, which is
falsy) from every non-string value. -/
inductive JsVal
  | str (s : String)
  | num (n : Int)
  | boolv (b : Bool)
  | nullv
  | undef
deriving DecidableEq

/-- The two roles a connection can bind to (`socket.data.role`). The spec
calls `laptop` the initiator and `mobile` the responder. -/
inductive Role
  | laptop
  | mobile
deriving DecidableEq

/-- One room's slots: `roomId -> { laptopId?: string, mobileId?: string }`. -/
structure RoomState where
  laptopId : Option String
  mobileId : Option String
deriving DecidableEq

/-- The `rooms` map; `none` means the code is absent from the map. -/
def Rooms : Type := String → Option RoomState

/-- Per-socket data (`socket.data.roomId`, `socket.data.role`). -/
structure ConnData where
  roomId : Option String
  role : Option Role
deriving DecidableEq

/-- Whole-server state: the room map plus each connection's binding. -/
structure ServerState where
  rooms : Rooms
  conns : String → ConnData

/-- A message emitted to a connection (`io.to(target).emit(name, ...)` or
`socket.emit(name, ...)`); negotiation payloads are opaque to routing. -/
structure Msg where
  target : String
  name : String
deriving DecidableEq

/-- Point update of the `rooms` map (`rooms.set`). -/
def setRoom (rooms : Rooms) (roomId : String) (st : RoomState) : Rooms :=
  fun k => if k = roomId then some st else rooms k

/-- Removal from the `rooms` map (`rooms.delete`). -/
def deleteRoom (rooms : Rooms) (roomId : String) : Rooms :=
  fun k => if k = roomId then none else rooms k

/-- Point update of a connection's data. -/
def updateConn (conns : String → ConnData) (sid : String) (d : ConnData) :
    String → ConnData :=
  fun k => if k = sid then d else conns k

/-- `getRoomState`: return the room for a code, creating an empty one if
absent; the pair is the room together with the possibly-extended map. -/
def getRoomState (rooms : Rooms) (roomId : String) : RoomState × Rooms :=
  match rooms roomId with
  | some st => (st, rooms)
  | none =>
    (⟨none, none⟩, setRoom rooms roomId ⟨none, none⟩)

/-- `otherPeer`: first occupied slot whose occupant differs from the caller,
laptop slot checked first. -/
def otherPeer (st : RoomState) (sid : String) : Option String :=
  match st.laptopId with
  | some l =>
    if l ≠ sid then some l
    else
      match st.mobileId with
      | some m => if m ≠ sid then some m else none
      | none => none
  | none =>
    match st.mobileId with
    | some m => if m ≠ sid then some m else none
    | none => none

/-- Clearing one socket id from whichever slots it occupies (the two
assignments in the `disconnect` handler). -/
def clearSocket (st : RoomState) (sid : String) : RoomState :=
  { laptopId := if st.laptopId = some sid then none else st.laptopId,
    mobileId := if st.mobileId = some sid then none else st.mobileId }

/-- `cleanupRoomIfEmpty`: delete the room when both slots are unoccupied. -/
def cleanupRoomIfEmpty (rooms : Rooms) (roomId : String) : Rooms :=
  match rooms roomId with
  | none => rooms
  | some st =>
    if st.laptopId.isNone && st.mobileId.isNone then deleteRoom rooms roomId
    else rooms

/-- The release performed by the `disconnect` handler on the bound room:
clear the departing id from its slots, then clean up if empty. -/
def releaseFromRooms (rooms : Rooms) (roomId sid : String) : Rooms :=
  match rooms roomId with
  | none => rooms
  | some st => cleanupRoomIfEmpty (setRoom rooms roomId (clearSocket st sid)) roomId

/-- `roomId.toUpperCase().trim()`: uppercase every character, then strip
leading and trailing whitespace (rendered on the character list so that the
kernel can evaluate it on literals). -/
def normalizeCode (roomId : String) : String :=
  String.mk
    ((((roomId.data.map Char.toUpper).dropWhile Char.isWhitespace).reverse.dropWhile
        Char.isWhitespace).reverse)

/-- The `join` closure: validate that the payload is a non-empty string
(everything else is silently ignored), normalize the code, occupy the role
slot (last writer wins), record the binding, and notify both endpoints when
the other slot is occupied. -/
def join (role : Role) (sid : String) (payload : JsVal) (s : ServerState) :
    ServerState × List Msg :=
  match payload with
  | JsVal.str roomId =>
    if roomId = "" then (s, [])
    else
      let normalized := normalizeCode roomId
      let st0 := (getRoomState s.rooms normalized).1
      let conns1 := updateConn s.conns sid ⟨some normalized, some role⟩
      match role with
      | Role.laptop =>
        let st1 : RoomState := { st0 with laptopId := some sid }
        let out := match st1.mobileId with
          | some m => [⟨sid, "mobile-ready"⟩, ⟨m, "laptop-ready"⟩]
          | none => []
        ({ rooms := setRoom s.rooms normalized st1, conns := conns1 }, out)
      | Role.mobile =>
        let st1 : RoomState := { st0 with mobileId := some sid }
        let out := match st1.laptopId with
          | some l => [⟨sid, "laptop-ready"⟩, ⟨l, "mobile-ready"⟩]
          | none => []
        ({ rooms := setRoom s.rooms normalized st1, conns := conns1 }, out)
  | _ => (s, [])

/-- The `relay` closure: forward to the counterpart of the sender's bound
room if there is one; otherwise drop silently. -/
def relay (sid : String) (eventName : String) (s : ServerState) : List Msg :=
  match (s.conns sid).roomId with
  | none => []
  | some roomId =>
    match s.rooms roomId with
    | none => []
    | some st =>
      match otherPeer st sid with
      | none => []
      | some target => [⟨target, eventName⟩]

/-- The `flip-camera` / `change-quality` handlers (identical bodies): the
command is forwarded to the mobile occupant only when the sender is bound,
the bound room exists, the sender's role is `laptop`, and the room has a
mobile occupant; otherwise dropped silently. -/
def controlForward (sid : String) (eventName : String) (s : ServerState) :
    List Msg :=
  match (s.conns sid).roomId with
  | none => []
  | some roomId =>
    match s.rooms roomId with
    | none => []
    | some st =>
      if (s.conns sid).role ≠ some Role.laptop then []
      else
        match st.mobileId with
        | none => []
        | some m => [⟨m, eventName⟩]

/-- The `disconnect` handler: look up the counterpart BEFORE clearing the
departing id, notify it, then release the slots and clean up. -/
def disconnectStep (sid : String) (s : ServerState) : ServerState × List Msg :=
  let d := s.conns sid
  let conns1 := updateConn s.conns sid ⟨none, none⟩
  match d.roomId with
  | none => ({ s with conns := conns1 }, [])
  | some roomId =>
    match s.rooms roomId with
    | none => ({ s with conns := conns1 }, [])
    | some st =>
      let out := match otherPeer st sid with
        | some t => [⟨t, "peer-disconnected"⟩]
        | none => []
      ({ rooms := releaseFromRooms s.rooms roomId sid, conns := conns1 }, out)

/-- Inbound events the server handles. -/
inductive Event
  | joinLaptop (sid : String) (payload : JsVal)
  | joinMobile (sid : String) (payload : JsVal)
  | offer (sid : String)
  | answer (sid : String)
  | iceCandidate (sid : String)
  | flipCamera (sid : String)
  | changeQuality (sid : String)
  | disconnect (sid : String)

/-- One atomic server step: dispatch an inbound event to its handler. -/
def step (s : ServerState) (e : Event) : ServerState × List Msg :=
  match e with
  | Event.joinLaptop sid p => join Role.laptop sid p s
  | Event.joinMobile sid p => join Role.mobile sid p s
  | Event.offer sid => (s, relay sid "offer" s)
  | Event.answer sid => (s, relay sid "answer" s)
  | Event.iceCandidate sid => (s, relay sid "ice-candidate" s)
  | Event.flipCamera sid => (s, controlForward sid "flip-camera" s)
  | Event.changeQuality sid => (s, controlForward sid "change-quality" s)
  | Event.disconnect sid => disconnectStep sid s

/-- Server start state: no rooms, no bindings. -/
def initServer : ServerState :=
  { rooms := fun _ => none, conns := fun _ => ⟨none, none⟩ }

/-- The server state reached after processing a sequence of events. -/
def runServer (events : List Event) : ServerState :=
  events.foldl (fun s e => (step s e).1) initServer

/-!
Endpoint-side negotiation logic. The laptop page and the mobile page carry
the same ICE-candidate handler and `drainIceQueue`; the mobile page also
carries the `makingOffer` guard and the `change-quality` handler.
-/

/-- An inbound `ice-candidate` payload as the handler's guard observes it:
the `candidate` field (`none` for JS `null`/`undefined`) and the `type`
field (`none` when absent or not a string). -/
structure IcePayload where
  candidate : Option String
  type : Option String
deriving DecidableEq

/-- Endpoint negotiation state for candidate handling: whether
`pc.remoteDescription` is set, the local `iceQueue`, plus the history of
`addIceCandidate` attempts and of the successful ones (both in call order). -/
structure IceState where
  remoteSet : Bool
  iceQueue : List IcePayload
  attempted : List IcePayload
  applied : List IcePayload
deriving DecidableEq

/-- One `try { await pc.addIceCandidate(...) } catch { /- ignore -/ }`:
the attempt is recorded; on failure (`addOk p = false`) nothing else
changes — the exception is swallowed. -/
def attemptAdd (addOk : IcePayload → Bool) (s : IceState) (p : IcePayload) :
    IceState :=
  { s with
    attempted := s.attempted ++ [p]
    applied := s.applied ++ (if addOk p then [p] else []) }

/-- The `while (iceQueue.length > 0) { shift(); try add … }` loop of
`drainIceQueue`, recursing on the queue being shifted from. -/
def drainLoop (addOk : IcePayload → Bool) (queue : List IcePayload)
    (s : IceState) : IceState :=
  match queue with
  | [] => s
  | p :: rest => drainLoop addOk rest (attemptAdd addOk s p)

/-- `drainIceQueue`: apply every queued candidate in FIFO order, swallowing
individual failures; the queue is empty afterwards. -/
def drainIceQueue (addOk : IcePayload → Bool) (s : IceState) : IceState :=
  drainLoop addOk s.iceQueue { s with iceQueue := [] }

/-- The guard at the top of the `ice-candidate` handler:
`!payload || (payload.candidate == null && payload.type !== "candidate")`
rejects the payload. -/
def validCandidatePayload : Option IcePayload → Bool
  | none => false
  | some p => !(p.candidate.isNone && p.type != some "candidate")

/-- Negotiation events that touch the candidate queue: an `ice-candidate`
message (`none` payload = JS null/undefined), and the remote description
being set (the `offer` handler on the laptop, the `answer` handler on the
mobile), whose `setRemoteDescription` may itself fail — then nothing is
drained and `remoteSet` stays false. -/
inductive NegEvent
  | candidate (p : Option IcePayload)
  | remoteDesc (success : Bool)

/-- One endpoint step: queue a candidate when no remote description exists,
apply it immediately otherwise; on a successful remote description, drain
the queue in FIFO order. -/
def negStep (addOk : IcePayload → Bool) (s : IceState) (e : NegEvent) :
    IceState :=
  match e with
  | NegEvent.candidate p =>
    if validCandidatePayload p then
      match p with
      | some c =>
        if s.remoteSet then attemptAdd addOk s c
        else { s with iceQueue := s.iceQueue ++ [c] }
      | none => s
    else s
  | NegEvent.remoteDesc success =>
    if success then drainIceQueue addOk { s with remoteSet := true }
    else s

/-- Endpoint start state: no remote description, empty queue. -/
def initIce : IceState :=
  { remoteSet := false, iceQueue := [], attempted := [], applied := [] }

/-- Endpoint state after a sequence of negotiation events. -/
def runNeg (addOk : IcePayload → Bool) (events : List NegEvent) : IceState :=
  events.foldl (negStep addOk) initIce

/-- The valid candidates carried by an event sequence, in arrival order. -/
def arrivedValid : List NegEvent → List IcePayload
  | [] => []
  | NegEvent.candidate (some c) :: rest =>
    (if validCandidatePayload (some c) then [c] else []) ++ arrivedValid rest
  | _ :: rest => arrivedValid rest

/-- The mobile page's `makingOffer` guard: `onnegotiationneeded` returns at
once when an offer generation is already executing; otherwise it sets the
flag, generates an offer, and the `finally` clears the flag when the
generation (successful or not) completes. `inFlight` counts generations
currently executing; `started` counts `createOffer` calls. -/
structure OfferState where
  makingOffer : Bool
  inFlight : Nat
  started : Nat
deriving DecidableEq

/-- Offer-machine events: a `negotiationneeded` firing, and the completion
(success or failure, via `finally`) of a running offer generation. -/
inductive OfferEv
  | negotiationNeeded
  | finishOffer

/-- One offer-machine step. -/
def stepOffer (s : OfferState) (e : OfferEv) : OfferState :=
  match e with
  | OfferEv.negotiationNeeded =>
    if s.makingOffer then s
    else { makingOffer := true, inFlight := s.inFlight + 1, started := s.started + 1 }
  | OfferEv.finishOffer =>
    match s.inFlight with
    | 0 => s
    | n + 1 => { makingOffer := false, inFlight := n, started := s.started }

/-- Offer-machine start state. -/
def initOffer : OfferState :=
  { makingOffer := false, inFlight := 0, started := 0 }

/-- Offer-machine state after a sequence of triggers/completions. -/
def runOffer (events : List OfferEv) : OfferState :=
  events.foldl stepOffer initOffer

/-- Fixed capture constraints (width, height, frameRate). -/
structure Constraints where
  width : Nat
  height : Nat
  frameRate : Nat
deriving DecidableEq

/-- `qualityToConstraints` from the mobile page. -/
def qualityToConstraints (quality : String) : Constraints :=
  if quality = "360p" then ⟨640, 360, 30⟩
  else if quality = "1080p" then ⟨1920, 1080, 30⟩
  else ⟨1280, 720, 30⟩

/-- The quality selected by the mobile `change-quality` handler:
`payload?.quality === "360p" || payload?.quality === "1080p" ?
payload.quality : "720p"`. The argument is the value of `payload?.quality`
(`none` when the payload is null/undefined or has no such field); a strict
`===` against a string is false for every non-string value. -/
def selectQuality (qualityField : Option JsVal) : String :=
  if qualityField = some (JsVal.str "360p") then "360p"
  else if qualityField = some (JsVal.str "1080p") then "1080p"
  else "720p"

/-! Helper definitions used by the theorem statements. -/

/-- The slot of a room belonging to one role. -/
def RoomState.slot (st : RoomState) : Role → Option String
  | Role.laptop => st.laptopId
  | Role.mobile => st.mobileId

/-- The occupant a (possibly absent) room reports for a role. -/
def occupantOf (r : Option RoomState) (role : Role) : Option String :=
  match r with
  | none => none
  | some st => st.slot role

/-- The peer-ready event name announcing that the given role is ready. -/
def readyName : Role → String
  | Role.laptop => "laptop-ready"
  | Role.mobile => "mobile-ready"

/-- The opposite role. -/
def otherRole : Role → Role
  | Role.laptop => Role.mobile
  | Role.mobile => Role.laptop

/-! Helper lemmas. -/

theorem drainLoop_spec (addOk : IcePayload → Bool) (queue : List IcePayload)
    (s : IceState) :
    drainLoop addOk queue s =
      { remoteSet := s.remoteSet, iceQueue := s.iceQueue,
        attempted := s.attempted ++ queue,
        applied := s.applied ++ queue.filter addOk } := by
  induction queue generalizing s with
  | nil => simp [drainLoop]
  | cons p rest ih =>
    rw [drainLoop, ih]
    rcases s with ⟨r, q, att, app⟩
    by_cases h : addOk p = true
    · simp [attemptAdd, List.filter_cons, h]
    · simp [attemptAdd, List.filter_cons, h]

theorem drainIceQueue_spec (addOk : IcePayload → Bool) (s : IceState) :
    drainIceQueue addOk s =
      { remoteSet := s.remoteSet, iceQueue := [],
        attempted := s.attempted ++ s.iceQueue,
        applied := s.applied ++ s.iceQueue.filter addOk } := by
  rw [drainIceQueue, drainLoop_spec]

theorem offer_invariant (events : List OfferEv) (s : OfferState)
    (h : s.inFlight = if s.makingOffer then 1 else 0) :
    (events.foldl stepOffer s).inFlight
      = if (events.foldl stepOffer s).makingOffer then 1 else 0 := by
  induction events generalizing s with
  | nil => exact h
  | cons e rest ih =>
    refine ih (stepOffer s e) ?_
    cases e with
    | negotiationNeeded =>
      by_cases hm : s.makingOffer <;> simp [stepOffer, hm] at h ⊢ <;> omega
    | finishOffer =>
      rcases hn : s.inFlight with _ | n
      · simpa [stepOffer, hn] using h
      · rw [hn] at h
        by_cases hm : s.makingOffer
        · simp [stepOffer, hn, hm] at h ⊢
          omega
        · simp [stepOffer, hn, hm] at h ⊢

theorem join_laptop_unfold (sid code : String) (s : ServerState) (h : code ≠ "") :
    join Role.laptop sid (JsVal.str code) s
      = ({ rooms := setRoom s.rooms (normalizeCode code)
              { (getRoomState s.rooms (normalizeCode code)).1 with laptopId := some sid },
           conns := updateConn s.conns sid
              ⟨some (normalizeCode code), some Role.laptop⟩ },
         match ((getRoomState s.rooms (normalizeCode code)).1).mobileId with
         | some m => [⟨sid, "mobile-ready"⟩, ⟨m, "laptop-ready"⟩]
         | none => []) := by
  rw [join, if_neg h]

theorem join_mobile_unfold (sid code : String) (s : ServerState) (h : code ≠ "") :
    join Role.mobile sid (JsVal.str code) s
      = ({ rooms := setRoom s.rooms (normalizeCode code)
              { (getRoomState s.rooms (normalizeCode code)).1 with mobileId := some sid },
           conns := updateConn s.conns sid
              ⟨some (normalizeCode code), some Role.mobile⟩ },
         match ((getRoomState s.rooms (normalizeCode code)).1).laptopId with
         | some l => [⟨sid, "laptop-ready"⟩, ⟨l, "mobile-ready"⟩]
         | none => []) := by
  rw [join, if_neg h]

theorem relay_msg_name (sid n : String) (s : ServerState) :
    ∀ msg ∈ relay sid n s, msg.name = n := by
  intro msg h
  unfold relay at h
  split at h
  · simp at h
  · split at h
    · simp at h
    · split at h
      · simp at h
      · simp at h
        rw [h]

theorem controlForward_msg_name (sid n : String) (s : ServerState) :
    ∀ msg ∈ controlForward sid n s, msg.name = n := by
  intro msg h
  unfold controlForward at h
  split at h
  · simp at h
  · split at h
    · simp at h
    · split at h
      · simp at h
      · split at h
        · simp at h
        · simp at h
          rw [h]

theorem disconnect_msg_name (sid : String) (s : ServerState) :
    ∀ msg ∈ (disconnectStep sid s).2, msg.name = "peer-disconnected" := by
  intro msg h
  rcases hd : (s.conns sid).roomId with _ | r
  · simp [disconnectStep, hd] at h
  · rcases hr : s.rooms r with _ | st
    · simp [disconnectStep, hd, hr] at h
    · rcases ho : otherPeer st sid with _ | t
      · simp [disconnectStep, hd, hr, ho] at h
      · simp [disconnectStep, hd, hr, ho] at h
        rw [h]

theorem negStep_foldl_spec (addOk : IcePayload → Bool) (events : List NegEvent) :
    ∀ s : IceState, (s.remoteSet = true → s.iceQueue = []) →
      ((List.foldl (negStep addOk) s events).remoteSet = true →
          (List.foldl (negStep addOk) s events).iceQueue = [])
      ∧ (List.foldl (negStep addOk) s events).attempted
            ++ (List.foldl (negStep addOk) s events).iceQueue
          = (s.attempted ++ s.iceQueue) ++ arrivedValid events
      ∧ ((List.foldl (negStep addOk) s events).remoteSet = false →
          (List.foldl (negStep addOk) s events).attempted = s.attempted
            ∧ s.remoteSet = false)
      ∧ (s.applied = s.attempted.filter addOk →
          (List.foldl (negStep addOk) s events).applied
            = (List.foldl (negStep addOk) s events).attempted.filter addOk) := by
  induction events with
  | nil =>
    intro s hq
    exact ⟨hq, by simp [arrivedValid], fun h => ⟨rfl, h⟩, fun h => h⟩
  | cons e rest ih =>
    intro s hq
    cases e with
    | candidate p =>
      rcases p with _ | c
      · have hstep : negStep addOk s (NegEvent.candidate none) = s := by
          simp [negStep, validCandidatePayload]
        simpa [List.foldl, hstep, arrivedValid] using ih s hq
      · by_cases hv : validCandidatePayload (some c) = true
        · rcases hr : s.remoteSet with _ | _
          · have hstep : negStep addOk s (NegEvent.candidate (some c))
                = { s with iceQueue := s.iceQueue ++ [c] } := by
              simp [negStep, hv, hr]
            have ih2 := ih { s with iceQueue := s.iceQueue ++ [c] }
              (by intro h; rw [hr] at h; cases h)
            rcases ih2 with ⟨a2, b2, c2, d2⟩
            refine ⟨by simpa [List.foldl, hstep] using a2, ?_, ?_, ?_⟩
            · rw [List.foldl, hstep]
              rw [b2]
              simp [arrivedValid, hv]
            · intro h
              rw [List.foldl, hstep] at h
              rcases c2 h with ⟨hc1, _⟩
              exact ⟨by simpa [List.foldl, hstep] using hc1, by simp [hr]⟩
            · intro h
              rw [List.foldl, hstep]
              exact d2 (by simpa using h)
          · have hql : s.iceQueue = [] := hq hr
            have hstep : negStep addOk s (NegEvent.candidate (some c))
                = attemptAdd addOk s c := by
              simp [negStep, hv, hr]
            have ih2 := ih (attemptAdd addOk s c)
              (by intro _; simp [attemptAdd, hql])
            rcases ih2 with ⟨a2, b2, c2, d2⟩
            refine ⟨by simpa [List.foldl, hstep] using a2, ?_, ?_, ?_⟩
            · rw [List.foldl, hstep]
              rw [b2]
              simp [attemptAdd, arrivedValid, hv, hql]
            · intro h
              rw [List.foldl, hstep] at h
              rcases c2 h with ⟨_, hc2⟩
              simp [attemptAdd, hr] at hc2
            · intro h
              rw [List.foldl, hstep]
              refine d2 ?_
              simp [attemptAdd, h, List.filter_append, List.filter_cons]
        · have hstep : negStep addOk s (NegEvent.candidate (some c)) = s := by
            simp [negStep, hv]
          have hv2 : validCandidatePayload (some c) = false := by
            rcases h : validCandidatePayload (some c) with _ | _
            · rfl
            · exact absurd h hv
          simpa [List.foldl, hstep, arrivedValid, hv2] using ih s hq
    | remoteDesc success =>
      rcases success with _ | _
      · have hstep : negStep addOk s (NegEvent.remoteDesc false) = s := by
          simp [negStep]
        simpa [List.foldl, hstep, arrivedValid] using ih s hq
      · have hstep : negStep addOk s (NegEvent.remoteDesc true)
            = { remoteSet := true, iceQueue := [],
                attempted := s.attempted ++ s.iceQueue,
                applied := s.applied ++ s.iceQueue.filter addOk } := by
          rw [negStep]
          simp [drainIceQueue_spec]
        have ih2 := ih
          { remoteSet := true, iceQueue := [],
            attempted := s.attempted ++ s.iceQueue,
            applied := s.applied ++ s.iceQueue.filter addOk }
          (by intro _; rfl)
        rcases ih2 with ⟨a2, b2, c2, d2⟩
        refine ⟨by simpa [List.foldl, hstep] using a2, ?_, ?_, ?_⟩
        · rw [List.foldl, hstep]
          rw [b2]
          simp [arrivedValid]
        · intro h
          rw [List.foldl, hstep] at h
          rcases c2 h with ⟨_, hc2⟩
          simp at hc2
        · intro h
          rw [List.foldl, hstep]
          refine d2 ?_
          simp [h, List.filter_append]

/-- C1: candidates arriving with no remote description are queued FIFO and
applied, in arrival order, only once the remote description is set;
candidates arriving afterwards are applied immediately in arrival order; a
failing `addIceCandidate` is swallowed without disturbing the rest (the
attempts are exactly the arrivals, the successes are the attempts that
succeed). -/
theorem iceQueue_fifo_applied_in_order (addOk : IcePayload → Bool)
    (events : List NegEvent) :
    (runNeg addOk events).attempted ++ (runNeg addOk events).iceQueue
        = arrivedValid events
    ∧ ((runNeg addOk events).remoteSet = true →
        (runNeg addOk events).iceQueue = [])
    ∧ ((runNeg addOk events).remoteSet = false →
        (runNeg addOk events).attempted = [])
    ∧ (runNeg addOk events).applied
        = (runNeg addOk events).attempted.filter addOk := by
  have h := negStep_foldl_spec addOk events initIce (by intro h; cases h)
  rcases h with ⟨a, b, c, d⟩
  exact ⟨by simpa [initIce] using b, a,
    fun hr => (c hr).1, d (by simp [initIce])⟩

theorem iceQueue_fifo_applied_in_order_witness :
    (runNeg (fun p => p.candidate != some "bad")
        [NegEvent.candidate (some ⟨some "c1", none⟩),
         NegEvent.candidate (some ⟨some "bad", none⟩),
         NegEvent.remoteDesc true,
         NegEvent.candidate (some ⟨some "c3", none⟩)]).iceQueue = []
    ∧ (runNeg (fun p => p.candidate != some "bad")
        [NegEvent.candidate (some ⟨some "c1", none⟩),
         NegEvent.candidate (some ⟨some "bad", none⟩),
         NegEvent.remoteDesc true,
         NegEvent.candidate (some ⟨some "c3", none⟩)]).applied
      = (runNeg (fun p => p.candidate != some "bad")
        [NegEvent.candidate (some ⟨some "c1", none⟩),
         NegEvent.candidate (some ⟨some "bad", none⟩),
         NegEvent.remoteDesc true,
         NegEvent.candidate (some ⟨some "c3", none⟩)]).attempted.filter
          (fun p => p.candidate != some "bad") :=
  ⟨(iceQueue_fifo_applied_in_order (fun p => p.candidate != some "bad")
      [NegEvent.candidate (some ⟨some "c1", none⟩),
       NegEvent.candidate (some ⟨some "bad", none⟩),
       NegEvent.remoteDesc true,
       NegEvent.candidate (some ⟨some "c3", none⟩)]).2.1 (by decide),
   (iceQueue_fifo_applied_in_order (fun p => p.candidate != some "bad")
      [NegEvent.candidate (some ⟨some "c1", none⟩),
       NegEvent.candidate (some ⟨some "bad", none⟩),
       NegEvent.remoteDesc true,
       NegEvent.candidate (some ⟨some "c3", none⟩)]).2.2.2⟩

/-- C2: a join that completes a pairing emits exactly one peer-ready
notification to the newcomer (naming the existing occupant's role) and
exactly one to the existing occupant (naming the newcomer's role); a join
finding the other slot empty emits nothing; and any step of the server that
emits a ready notification leaves the joined room with both slots
occupied — a ready notification is never sent for a half-occupied room. -/
theorem peer_ready_exactly_on_pairing (s : ServerState) (sid code : String)
    (role : Role) :
    (code ≠ "" → ∀ m,
      ((getRoomState s.rooms (normalizeCode code)).1).slot (otherRole role) = some m →
      (join role sid (JsVal.str code) s).2
          = [⟨sid, readyName (otherRole role)⟩, ⟨m, readyName role⟩]
        ∧ ∃ st, (join role sid (JsVal.str code) s).1.rooms (normalizeCode code)
              = some st
            ∧ st.slot role = some sid ∧ st.slot (otherRole role) = some m)
    ∧ (code ≠ "" →
        ((getRoomState s.rooms (normalizeCode code)).1).slot (otherRole role) = none →
        (join role sid (JsVal.str code) s).2 = [])
    ∧ (∀ e msg, msg ∈ (step s e).2 →
        msg.name = "laptop-ready" ∨ msg.name = "mobile-ready" →
        ∃ r st, (step s e).1.rooms r = some st
          ∧ st.laptopId.isSome = true ∧ st.mobileId.isSome = true) := by
  refine ⟨?_, ?_, ?_⟩
  · intro h m hm
    cases role
    · rw [join_laptop_unfold sid code s h]
      simp only [otherRole, RoomState.slot] at hm ⊢
      rw [hm]
      exact ⟨rfl, ⟨⟨some sid, some m⟩, by simp [setRoom], rfl, rfl⟩⟩
    · rw [join_mobile_unfold sid code s h]
      simp only [otherRole, RoomState.slot] at hm ⊢
      rw [hm]
      exact ⟨rfl, ⟨⟨some m, some sid⟩, by simp [setRoom], rfl, rfl⟩⟩
  · intro h hm
    cases role
    · rw [join_laptop_unfold sid code s h]
      simp only [otherRole, RoomState.slot] at hm
      rw [hm]
    · rw [join_mobile_unfold sid code s h]
      simp only [otherRole, RoomState.slot] at hm
      rw [hm]
  · intro e msg hmem hname
    cases e with
    | joinLaptop sid2 p2 =>
      simp only [step] at hmem ⊢
      rcases p2 with s2 | n2 | b2 | _ | _
      case str =>
        by_cases hc : s2 = ""
        · subst hc
          simp [join] at hmem
        · rw [join_laptop_unfold sid2 s2 s hc] at hmem ⊢
          rcases hm : ((getRoomState s.rooms (normalizeCode s2)).1).mobileId with _ | m
          · simp [hm] at hmem
          · refine ⟨normalizeCode s2,
              ⟨some sid2, (getRoomState s.rooms (normalizeCode s2)).1.mobileId⟩,
              by simp [setRoom], rfl, by simp [hm]⟩
      all_goals simp [join] at hmem
    | joinMobile sid2 p2 =>
      simp only [step] at hmem ⊢
      rcases p2 with s2 | n2 | b2 | _ | _
      case str =>
        by_cases hc : s2 = ""
        · subst hc
          simp [join] at hmem
        · rw [join_mobile_unfold sid2 s2 s hc] at hmem ⊢
          rcases hm : ((getRoomState s.rooms (normalizeCode s2)).1).laptopId with _ | l
          · simp [hm] at hmem
          · refine ⟨normalizeCode s2,
              ⟨(getRoomState s.rooms (normalizeCode s2)).1.laptopId, some sid2⟩,
              by simp [setRoom], by simp [hm], rfl⟩
      all_goals simp [join] at hmem
    | offer sid2 =>
      simp only [step] at hmem
      have hn := relay_msg_name sid2 "offer" s msg hmem
      rcases hname with h | h
      · rw [hn] at h; exact absurd h (by decide)
      · rw [hn] at h; exact absurd h (by decide)
    | answer sid2 =>
      simp only [step] at hmem
      have hn := relay_msg_name sid2 "answer" s msg hmem
      rcases hname with h | h
      · rw [hn] at h; exact absurd h (by decide)
      · rw [hn] at h; exact absurd h (by decide)
    | iceCandidate sid2 =>
      simp only [step] at hmem
      have hn := relay_msg_name sid2 "ice-candidate" s msg hmem
      rcases hname with h | h
      · rw [hn] at h; exact absurd h (by decide)
      · rw [hn] at h; exact absurd h (by decide)
    | flipCamera sid2 =>
      simp only [step] at hmem
      have hn := controlForward_msg_name sid2 "flip-camera" s msg hmem
      rcases hname with h | h
      · rw [hn] at h; exact absurd h (by decide)
      · rw [hn] at h; exact absurd h (by decide)
    | changeQuality sid2 =>
      simp only [step] at hmem
      have hn := controlForward_msg_name sid2 "change-quality" s msg hmem
      rcases hname with h | h
      · rw [hn] at h; exact absurd h (by decide)
      · rw [hn] at h; exact absurd h (by decide)
    | disconnect sid2 =>
      simp only [step] at hmem
      have hn := disconnect_msg_name sid2 s msg hmem
      rcases hname with h | h
      · rw [hn] at h; exact absurd h (by decide)
      · rw [hn] at h; exact absurd h (by decide)

theorem peer_ready_exactly_on_pairing_witness :
    (join Role.laptop "L" (JsVal.str "ROOM")
        (runServer [Event.joinMobile "M" (JsVal.str "ROOM")])).2
      = [⟨"L", "mobile-ready"⟩, ⟨"M", "laptop-ready"⟩]
    ∧ (join Role.mobile "M" (JsVal.str "ROOM") initServer).2 = [] :=
  ⟨by
    have h := ((peer_ready_exactly_on_pairing
        (runServer [Event.joinMobile "M" (JsVal.str "ROOM")]) "L" "ROOM"
        Role.laptop).1 (by decide) "M" (by decide)).1
    simpa [readyName, otherRole] using h,
   (peer_ready_exactly_on_pairing initServer "M" "ROOM" Role.mobile).2.1
      (by decide) (by decide)⟩

/-- C7: `otherPeer` returns the occupant of the role other than the caller's,
only when present and different from the caller's identifier; it never
returns the caller's own occupancy, and it returns nothing when the caller
occupies both slots. -/
theorem otherPeer_returns_counterpart (st : RoomState) (sid : String) :
    (st.laptopId = some sid → st.mobileId = some sid → otherPeer st sid = none)
    ∧ (∀ t, otherPeer st sid = some t →
        t ≠ sid ∧ (st.laptopId = some t ∨ st.mobileId = some t))
    ∧ (st.laptopId = some sid → st.mobileId ≠ some sid →
        otherPeer st sid = st.mobileId)
    ∧ (st.mobileId = some sid → st.laptopId ≠ some sid →
        otherPeer st sid = st.laptopId) := by
  rcases st with ⟨lap, mob⟩
  refine ⟨?_, ?_, ?_, ?_⟩
  · intro h1 h2
    simp only at h1 h2
    subst h1; subst h2
    simp [otherPeer]
  · intro t ht
    rcases lap with _ | l <;> rcases mob with _ | m
    · simp [otherPeer] at ht
    · by_cases hm : m = sid
      · simp [otherPeer, hm] at ht
      · simp [otherPeer, hm] at ht
        exact ⟨ht ▸ hm, Or.inr (by rw [ht])⟩
    · by_cases hl : l = sid
      · simp [otherPeer, hl] at ht
      · simp [otherPeer, hl] at ht
        exact ⟨ht ▸ hl, Or.inl (by rw [ht])⟩
    · by_cases hl : l = sid
      · by_cases hm : m = sid
        · simp [otherPeer, hl, hm] at ht
        · simp [otherPeer, hl, hm] at ht
          exact ⟨ht ▸ hm, Or.inr (by rw [ht])⟩
      · simp [otherPeer, hl] at ht
        exact ⟨ht ▸ hl, Or.inl (by rw [ht])⟩
  · intro h1 h2
    simp only at h1 h2
    subst h1
    rcases mob with _ | m
    · simp [otherPeer]
    · have hm : m ≠ sid := fun h => h2 (by rw [h])
      simp [otherPeer, hm]
  · intro h1 h2
    simp only at h1 h2
    subst h1
    rcases lap with _ | l
    · simp [otherPeer]
    · have hl : l ≠ sid := fun h => h2 (by rw [h])
      simp [otherPeer, hl]

theorem otherPeer_returns_counterpart_witness :
    otherPeer ⟨some "A", some "B"⟩ "A" = some "B"
    ∧ otherPeer ⟨some "A", some "A"⟩ "A" = none :=
  ⟨(otherPeer_returns_counterpart ⟨some "A", some "B"⟩ "A").2.2.1 rfl (by decide),
   (otherPeer_returns_counterpart ⟨some "A", some "A"⟩ "A").1 rfl rfl⟩

/-- C8: the `makingOffer` guard admits at most one concurrent offer
generation — in every reachable state at most one generation is in flight
(exactly one while the flag is set), and a `negotiationneeded` firing while
the flag is set starts no new offer. -/
theorem offer_in_flight_guard (events : List OfferEv) :
    (runOffer events).inFlight ≤ 1
    ∧ (runOffer events).inFlight
        = (if (runOffer events).makingOffer then 1 else 0)
    ∧ ((runOffer events).makingOffer = true →
        stepOffer (runOffer events) OfferEv.negotiationNeeded
          = runOffer events) := by
  have h := offer_invariant events initOffer (by simp [initOffer])
  refine ⟨?_, h, ?_⟩
  · rw [runOffer] at *
    rw [h]; split <;> omega
  · intro hm
    simp [stepOffer, hm]

theorem offer_in_flight_guard_witness :
    (runOffer [OfferEv.negotiationNeeded]).makingOffer = true
    ∧ stepOffer (runOffer [OfferEv.negotiationNeeded]) OfferEv.negotiationNeeded
        = runOffer [OfferEv.negotiationNeeded]
    ∧ (runOffer [OfferEv.negotiationNeeded]).inFlight ≤ 1 :=
  ⟨by decide,
   (offer_in_flight_guard [OfferEv.negotiationNeeded]).2.2 (by decide),
   (offer_in_flight_guard [OfferEv.negotiationNeeded]).1⟩

/-- C10: the applied quality is "360p" or "1080p" exactly when the payload's
quality field carries that string, and "720p" in every other case; the three
qualities map to the fixed 640x360 / 1920x1080 / 1280x720 constraints at 30
frames per second, and the selected quality never leaves that set. -/
theorem change_quality_selection (qualityField : Option JsVal) :
    (selectQuality qualityField = "360p"
      ∨ selectQuality qualityField = "720p"
      ∨ selectQuality qualityField = "1080p")
    ∧ (selectQuality qualityField = "360p"
        ↔ qualityField = some (JsVal.str "360p"))
    ∧ (selectQuality qualityField = "1080p"
        ↔ qualityField = some (JsVal.str "1080p"))
    ∧ (qualityField ≠ some (JsVal.str "360p") →
        qualityField ≠ some (JsVal.str "1080p") →
        selectQuality qualityField = "720p")
    ∧ qualityToConstraints "360p" = ⟨640, 360, 30⟩
    ∧ qualityToConstraints "1080p" = ⟨1920, 1080, 30⟩
    ∧ qualityToConstraints "720p" = ⟨1280, 720, 30⟩ := by
  by_cases h1 : qualityField = some (JsVal.str "360p")
  · subst h1
    refine ⟨by simp [selectQuality], ?_, ?_, ?_, by decide, by decide, by decide⟩
    · simp [selectQuality]
    · simp [selectQuality]
    · intro h _; exact absurd rfl h
  · by_cases h2 : qualityField = some (JsVal.str "1080p")
    · subst h2
      refine ⟨by simp [selectQuality], ?_, ?_, ?_, by decide, by decide, by decide⟩
      · simp [selectQuality]
      · simp [selectQuality]
      · intro _ h; exact absurd rfl h
    · refine ⟨by simp [selectQuality, h1, h2], ?_, ?_, ?_, by decide, by decide, by decide⟩
      · simp [selectQuality, h1, h2]
      · simp [selectQuality, h1, h2]
      · intro _ _; simp [selectQuality, h1, h2]

theorem change_quality_selection_witness :
    selectQuality (some (JsVal.num 5)) = "720p"
    ∧ selectQuality (some (JsVal.str "1080p")) = "1080p"
    ∧ qualityToConstraints (selectQuality none) = ⟨1280, 720, 30⟩ :=
  ⟨(change_quality_selection (some (JsVal.num 5))).2.2.2.1
      (by decide) (by decide),
   ((change_quality_selection (some (JsVal.str "1080p"))).2.2.1).2 rfl,
   by
    have h := (change_quality_selection none).2.2.2.1 (by decide) (by decide)
    rw [h]
    exact (change_quality_selection none).2.2.2.2.2.2⟩

theorem clearSocket_not_sid (st : RoomState) (sid : String) :
    (clearSocket st sid).laptopId ≠ some sid
    ∧ (clearSocket st sid).mobileId ≠ some sid := by
  constructor
  · by_cases h : st.laptopId = some sid
    · simp [clearSocket, h]
    · simp [clearSocket, h]
  · by_cases h : st.mobileId = some sid
    · simp [clearSocket, h]
    · simp [clearSocket, h]

theorem releaseFromRooms_at (rooms : Rooms) (r sid : String) (st : RoomState)
    (hr : rooms r = some st) :
    releaseFromRooms rooms r sid r
      = (if (clearSocket st sid).laptopId.isNone
            && (clearSocket st sid).mobileId.isNone
         then none
         else some (clearSocket st sid)) := by
  by_cases hempty : ((clearSocket st sid).laptopId.isNone
      && (clearSocket st sid).mobileId.isNone) = true
  · rw [if_pos hempty]
    unfold releaseFromRooms
    rw [hr]
    unfold cleanupRoomIfEmpty
    simp [setRoom, deleteRoom, hempty]
  · rw [if_neg hempty]
    unfold releaseFromRooms
    rw [hr]
    unfold cleanupRoomIfEmpty
    simp [setRoom, deleteRoom, hempty]

theorem releaseFromRooms_other (rooms : Rooms) (r sid code : String)
    (h : code ≠ r) :
    releaseFromRooms rooms r sid code = rooms code := by
  unfold releaseFromRooms
  rcases hr : rooms r with _ | st
  · rfl
  · by_cases hempty : ((clearSocket st sid).laptopId.isNone
        && (clearSocket st sid).mobileId.isNone) = true
    · simp [cleanupRoomIfEmpty, setRoom, deleteRoom, hempty, h]
    · simp [cleanupRoomIfEmpty, setRoom, deleteRoom, hempty, h]

/-- C3: a `flip-camera` / `change-quality` command is forwarded (to the
mobile occupant of the sender's bound room) iff the sender is bound to the
laptop (initiator) role and its bound room currently has a mobile
(responder) occupant; in every other case — including a sender bound as
mobile — the command is dropped silently: no message is emitted and the
server state is unchanged. -/
theorem control_commands_role_gated (s : ServerState) (sid eventName : String) :
    (controlForward sid eventName s ≠ [] ↔
      ∃ r st m, (s.conns sid).roomId = some r
        ∧ (s.conns sid).role = some Role.laptop
        ∧ s.rooms r = some st ∧ st.mobileId = some m)
    ∧ (∀ r st m, (s.conns sid).roomId = some r →
        (s.conns sid).role = some Role.laptop →
        s.rooms r = some st → st.mobileId = some m →
        controlForward sid eventName s = [⟨m, eventName⟩])
    ∧ (step s (Event.flipCamera sid)).1 = s
    ∧ (step s (Event.changeQuality sid)).1 = s
    ∧ (step s (Event.flipCamera sid)).2 = controlForward sid "flip-camera" s
    ∧ (step s (Event.changeQuality sid)).2
        = controlForward sid "change-quality" s := by
  refine ⟨⟨?_, ?_⟩, ?_, rfl, rfl, rfl, rfl⟩
  · intro hne
    unfold controlForward at hne
    rcases hd : (s.conns sid).roomId with _ | r
    · simp only [hd] at hne
      exact absurd rfl hne
    · simp only [hd] at hne
      rcases hr : s.rooms r with _ | st
      · simp only [hr] at hne
        exact absurd rfl hne
      · simp only [hr] at hne
        by_cases hrole : (s.conns sid).role = some Role.laptop
        · rw [if_neg (by simp [hrole])] at hne
          rcases hm : st.mobileId with _ | m
          · simp only [hm] at hne
            exact absurd rfl hne
          · exact ⟨r, st, m, rfl, hrole, hr, hm⟩
        · rw [if_pos hrole] at hne
          exact absurd rfl hne
  · intro hex
    rcases hex with ⟨r, st, m, hd, hrole, hr, hm⟩
    simp [controlForward, hd, hr, hrole, hm]
  · intro r st m hd hrole hr hm
    simp [controlForward, hd, hr, hrole, hm]

theorem control_commands_role_gated_witness :
    controlForward "L" "flip-camera"
        (runServer [Event.joinMobile "M" (JsVal.str "R"),
          Event.joinLaptop "L" (JsVal.str "R")])
      = [⟨"M", "flip-camera"⟩]
    ∧ controlForward "M" "flip-camera"
        (runServer [Event.joinMobile "M" (JsVal.str "R"),
          Event.joinLaptop "L" (JsVal.str "R")])
      = [] :=
  ⟨(control_commands_role_gated
      (runServer [Event.joinMobile "M" (JsVal.str "R"),
        Event.joinLaptop "L" (JsVal.str "R")]) "L" "flip-camera").2.1
      "R" ⟨some "L", some "M"⟩ "M" (by decide) (by decide) (by decide) (by decide),
   by
    have h := ((control_commands_role_gated
        (runServer [Event.joinMobile "M" (JsVal.str "R"),
          Event.joinLaptop "L" (JsVal.str "R")]) "M" "flip-camera").1).1
    by_contra hne
    rcases h hne with ⟨r, st, m, _, hrole, _, _⟩
    have : (runServer [Event.joinMobile "M" (JsVal.str "R"),
        Event.joinLaptop "L" (JsVal.str "R")]).conns "M"
        = ⟨some "R", some Role.mobile⟩ := by decide
    rw [this] at hrole
    cases hrole⟩

/-- C4: each role slot of each room holds at most one connection identifier
in every reachable registry state, and a second occupy of the same role of
the same room unconditionally displaces the first: after A joins a role and
B then joins the same role of the same room, the registry reports B, not A,
for that role. -/
theorem role_slot_last_writer_wins :
    (∀ (events : List Event) (code : String) (role : Role),
      (occupantOf ((runServer events).rooms code) role).toList.length ≤ 1)
    ∧ (∀ (s : ServerState) (A B code : String) (role : Role), code ≠ "" →
        occupantOf
          ((join role B (JsVal.str code)
              (join role A (JsVal.str code) s).1).1.rooms (normalizeCode code))
          role = some B)
    ∧ (∀ (s : ServerState) (A B code : String) (role : Role),
        code ≠ "" → A ≠ B →
        occupantOf
          ((join role B (JsVal.str code)
              (join role A (JsVal.str code) s).1).1.rooms (normalizeCode code))
          role ≠ some A) := by
  have hb : ∀ (s : ServerState) (A B code : String) (role : Role), code ≠ "" →
      occupantOf
        ((join role B (JsVal.str code)
            (join role A (JsVal.str code) s).1).1.rooms (normalizeCode code))
        role = some B := by
    intro s A B code role h
    cases role
    · rw [join_laptop_unfold A code s h,
        join_laptop_unfold B code _ h]
      simp [occupantOf, RoomState.slot, setRoom]
    · rw [join_mobile_unfold A code s h,
        join_mobile_unfold B code _ h]
      simp [occupantOf, RoomState.slot, setRoom]
  refine ⟨?_, hb, ?_⟩
  · intro events code role
    rcases occupantOf ((runServer events).rooms code) role with _ | x
    · simp
    · simp
  · intro s A B code role h hAB
    rw [hb s A B code role h]
    intro hcontra
    exact hAB (Option.some.inj hcontra).symm

theorem role_slot_last_writer_wins_witness :
    occupantOf
        ((join Role.laptop "B" (JsVal.str "ABCDEF")
            (join Role.laptop "A" (JsVal.str "ABCDEF") initServer).1).1.rooms
          (normalizeCode "ABCDEF"))
        Role.laptop = some "B"
    ∧ occupantOf
        ((join Role.laptop "B" (JsVal.str "ABCDEF")
            (join Role.laptop "A" (JsVal.str "ABCDEF") initServer).1).1.rooms
          (normalizeCode "ABCDEF"))
        Role.laptop ≠ some "A" :=
  ⟨role_slot_last_writer_wins.2.1 initServer "A" "B" "ABCDEF" Role.laptop
      (by decide),
   role_slot_last_writer_wins.2.2 initServer "A" "B" "ABCDEF" Role.laptop
      (by decide) (by decide)⟩

/-- C5 as stated is false on the code: a connection can be bound to a room
while occupying none of its slots (after being displaced by a later join of
the same role). Its disconnect then leaves the room with BOTH slots still
occupied (neither exactly one occupied slot nor deleted), and emits a
peer-disconnected to one of the two surviving occupants. Trace: A joins
ROOM01 as laptop, C joins ROOM01 as laptop (displacing A), D joins as
mobile, then A disconnects. -/
theorem disconnect_bound_room_counterexample :
    ((runServer [Event.joinLaptop "A" (JsVal.str "ROOM01"),
        Event.joinLaptop "C" (JsVal.str "ROOM01"),
        Event.joinMobile "D" (JsVal.str "ROOM01")]).conns "A").roomId
      = some "ROOM01"
    ∧ (disconnectStep "A"
        (runServer [Event.joinLaptop "A" (JsVal.str "ROOM01"),
          Event.joinLaptop "C" (JsVal.str "ROOM01"),
          Event.joinMobile "D" (JsVal.str "ROOM01")])).1.rooms "ROOM01"
      = some ⟨some "C", some "D"⟩
    ∧ (disconnectStep "A"
        (runServer [Event.joinLaptop "A" (JsVal.str "ROOM01"),
          Event.joinLaptop "C" (JsVal.str "ROOM01"),
          Event.joinMobile "D" (JsVal.str "ROOM01")])).2
      = [⟨"C", "peer-disconnected"⟩] :=
  ⟨by decide, by decide, by decide⟩

/-- C5 amended: for every disconnect of a connection that is bound to a room,
whose bound room exists, and that occupies one of that room's role slots:
the counterpart is looked up on the pre-release state (so the notification
target is determined before the identifier is cleared), the surviving
occupant (if any) receives exactly one peer-disconnected, and afterwards the
bound room either has exactly one occupied slot or has been deleted — the
departed identifier remains in none of its slots. -/
theorem disconnect_of_occupant_cleans_room (s : ServerState) (sid r : String)
    (st : RoomState)
    (hb : (s.conns sid).roomId = some r)
    (hr : s.rooms r = some st)
    (hocc : st.laptopId = some sid ∨ st.mobileId = some sid) :
    (disconnectStep sid s).2
        = (match otherPeer st sid with
           | some t => [⟨t, "peer-disconnected"⟩]
           | none => [])
    ∧ ((disconnectStep sid s).1.rooms r = none
        ∨ ∃ st2, (disconnectStep sid s).1.rooms r = some st2
            ∧ ((st2.laptopId.isSome = true ∧ st2.mobileId = none)
              ∨ (st2.laptopId = none ∧ st2.mobileId.isSome = true)))
    ∧ (∀ st2, (disconnectStep sid s).1.rooms r = some st2 →
        st2.laptopId ≠ some sid ∧ st2.mobileId ≠ some sid) := by
  have hrooms : (disconnectStep sid s).1.rooms = releaseFromRooms s.rooms r sid := by
    simp [disconnectStep, hb, hr]
  refine ⟨?_, ?_, ?_⟩
  · rcases ho : otherPeer st sid with _ | t
    · simp [disconnectStep, hb, hr, ho]
    · simp [disconnectStep, hb, hr, ho]
  · rw [hrooms, releaseFromRooms_at s.rooms r sid st hr]
    by_cases hempty : ((clearSocket st sid).laptopId.isNone
        && (clearSocket st sid).mobileId.isNone) = true
    · left
      rw [if_pos hempty]
    · right
      refine ⟨clearSocket st sid, by rw [if_neg hempty], ?_⟩
      rcases hocc with h1 | h1
      · have hl : (clearSocket st sid).laptopId = none := by
          simp [clearSocket, h1]
        right
        refine ⟨hl, ?_⟩
        rcases hm : (clearSocket st sid).mobileId with _ | m
        · exact absurd (by simp [hl, hm]) hempty
        · simp [hm]
      · have hm : (clearSocket st sid).mobileId = none := by
          simp [clearSocket, h1]
        left
        refine ⟨?_, hm⟩
        rcases hl : (clearSocket st sid).laptopId with _ | l
        · exact absurd (by simp [hl, hm]) hempty
        · simp [hl]
  · intro st2 h2
    rw [hrooms, releaseFromRooms_at s.rooms r sid st hr] at h2
    by_cases hempty : ((clearSocket st sid).laptopId.isNone
        && (clearSocket st sid).mobileId.isNone) = true
    · rw [if_pos hempty] at h2
      cases h2
    · rw [if_neg hempty] at h2
      obtain rfl := Option.some.inj h2
      exact clearSocket_not_sid st sid

theorem disconnect_of_occupant_cleans_room_witness :
    (disconnectStep "A" (runServer [Event.joinLaptop "A" (JsVal.str "ROOM"),
        Event.joinMobile "B" (JsVal.str "ROOM")])).2
      = [⟨"B", "peer-disconnected"⟩]
    ∧ ((⟨none, some "B"⟩ : RoomState).laptopId ≠ some "A"
        ∧ (⟨none, some "B"⟩ : RoomState).mobileId ≠ some "A") :=
  ⟨by
    have h := (disconnect_of_occupant_cleans_room
        (runServer [Event.joinLaptop "A" (JsVal.str "ROOM"),
          Event.joinMobile "B" (JsVal.str "ROOM")])
        "A" "ROOM" ⟨some "A", some "B"⟩ (by decide) (by decide)
        (Or.inl rfl)).1
    rw [show otherPeer ⟨some "A", some "B"⟩ "A" = some "B" from by decide] at h
    exact h,
   (disconnect_of_occupant_cleans_room
        (runServer [Event.joinLaptop "A" (JsVal.str "ROOM"),
          Event.joinMobile "B" (JsVal.str "ROOM")])
        "A" "ROOM" ⟨some "A", some "B"⟩ (by decide) (by decide)
        (Or.inl rfl)).2.2 ⟨none, some "B"⟩ (by decide)⟩

theorem setRoom_self (rooms : Rooms) (r : String) (st : RoomState) :
    setRoom rooms r st r = some st := by
  simp [setRoom]

theorem setRoom_other (rooms : Rooms) (r code : String) (st : RoomState)
    (h : code ≠ r) : setRoom rooms r st code = rooms code := by
  simp [setRoom, h]

theorem join_preserves_occupied (role : Role) (sid : String) (p : JsVal)
    (s : ServerState)
    (hs : ∀ code st, s.rooms code = some st →
      st.laptopId.isSome = true ∨ st.mobileId.isSome = true) :
    ∀ code st, (join role sid p s).1.rooms code = some st →
      st.laptopId.isSome = true ∨ st.mobileId.isSome = true := by
  intro code st h
  rcases p with c | n | b | _ | _
  case str =>
    by_cases hc : c = ""
    · subst hc
      rw [show join role sid (JsVal.str "") s = (s, []) from by simp [join]] at h
      exact hs code st h
    · cases role
      · rw [join_laptop_unfold sid c s hc] at h
        dsimp only at h
        by_cases hcode : code = normalizeCode c
        · subst hcode
          rw [setRoom_self] at h
          obtain rfl := Option.some.inj h
          left
          rfl
        · rw [setRoom_other _ _ _ _ hcode] at h
          exact hs code st h
      · rw [join_mobile_unfold sid c s hc] at h
        dsimp only at h
        by_cases hcode : code = normalizeCode c
        · subst hcode
          rw [setRoom_self] at h
          obtain rfl := Option.some.inj h
          right
          rfl
        · rw [setRoom_other _ _ _ _ hcode] at h
          exact hs code st h
  all_goals exact hs code st h

theorem disconnect_preserves_occupied (sid : String) (s : ServerState)
    (hs : ∀ code st, s.rooms code = some st →
      st.laptopId.isSome = true ∨ st.mobileId.isSome = true) :
    ∀ code st, (disconnectStep sid s).1.rooms code = some st →
      st.laptopId.isSome = true ∨ st.mobileId.isSome = true := by
  intro code st h
  rcases hd : (s.conns sid).roomId with _ | r
  · simp only [disconnectStep, hd] at h
    exact hs code st h
  · rcases hr : s.rooms r with _ | st0
    · simp only [disconnectStep, hd, hr] at h
      exact hs code st h
    · have hru : (disconnectStep sid s).1.rooms
          = releaseFromRooms s.rooms r sid := by
        simp [disconnectStep, hd, hr]
      rw [hru] at h
      by_cases hcode : code = r
      · subst hcode
        rw [releaseFromRooms_at s.rooms code sid st0 hr] at h
        by_cases hempty : ((clearSocket st0 sid).laptopId.isNone
            && (clearSocket st0 sid).mobileId.isNone) = true
        · rw [if_pos hempty] at h
          cases h
        · rw [if_neg hempty] at h
          obtain rfl := Option.some.inj h
          rcases hl : (clearSocket st0 sid).laptopId with _ | x
          · rcases hm : (clearSocket st0 sid).mobileId with _ | y
            · exact absurd (by simp [hl, hm]) hempty
            · right
              simp [hm]
          · left
            simp [hl]
      · rw [releaseFromRooms_other s.rooms r sid code hcode] at h
        exact hs code st h

theorem runServer_occupied (events : List Event) :
    ∀ code st, (runServer events).rooms code = some st →
      st.laptopId.isSome = true ∨ st.mobileId.isSome = true := by
  have main : ∀ (evs : List Event) (s : ServerState),
      (∀ code st, s.rooms code = some st →
        st.laptopId.isSome = true ∨ st.mobileId.isSome = true) →
      ∀ code st, (evs.foldl (fun s e => (step s e).1) s).rooms code = some st →
        st.laptopId.isSome = true ∨ st.mobileId.isSome = true := by
    intro evs
    induction evs with
    | nil => intro s hs; exact hs
    | cons e rest ih =>
      intro s hs
      refine ih ((step s e).1) ?_
      cases e with
      | joinLaptop sid p => exact join_preserves_occupied Role.laptop sid p s hs
      | joinMobile sid p => exact join_preserves_occupied Role.mobile sid p s hs
      | offer sid => exact hs
      | answer sid => exact hs
      | iceCandidate sid => exact hs
      | flipCamera sid => exact hs
      | changeQuality sid => exact hs
      | disconnect sid => exact disconnect_preserves_occupied sid s hs
  exact main events initServer (by intro code st h; simp [initServer] at h)

/-- C6: a room exists in the registry only while occupied — in every
reachable state every present room has at least one occupied slot; the
release performed on disconnect is a no-op for an absent code or an
identifier occupying no slot (idempotent), deletes the room the instant
both slots become empty, and a subsequent resolve of that code yields a
fresh empty room with no residual state. -/
theorem room_lifecycle_and_release_idempotent :
    (∀ (events : List Event) (code : String) (st : RoomState),
      (runServer events).rooms code = some st →
      st.laptopId.isSome = true ∨ st.mobileId.isSome = true)
    ∧ (∀ (rooms : Rooms) (code sid : String), rooms code = none →
        releaseFromRooms rooms code sid = rooms)
    ∧ (∀ (rooms : Rooms) (code sid : String) (st : RoomState),
        rooms code = some st →
        st.laptopId ≠ some sid → st.mobileId ≠ some sid →
        (st.laptopId.isSome = true ∨ st.mobileId.isSome = true) →
        releaseFromRooms rooms code sid = rooms)
    ∧ (∀ (rooms : Rooms) (code sid : String) (st : RoomState),
        rooms code = some st →
        (clearSocket st sid).laptopId = none →
        (clearSocket st sid).mobileId = none →
        releaseFromRooms rooms code sid code = none)
    ∧ (∀ (rooms : Rooms) (code : String), rooms code = none →
        (getRoomState rooms code).1 = ⟨none, none⟩) := by
  refine ⟨fun events code st h => runServer_occupied events code st h,
    ?_, ?_, ?_, ?_⟩
  · intro rooms code sid h
    unfold releaseFromRooms
    rw [h]
  · intro rooms code sid st hr hl hm hoccb
    have hclear : clearSocket st sid = st := by
      simp [clearSocket, hl, hm]
    have hset : setRoom rooms code st = rooms := by
      funext k
      by_cases hk : k = code
      · subst hk
        simp [setRoom, hr]
      · simp [setRoom, hk]
    have hcond : (st.laptopId.isNone && st.mobileId.isNone) = false := by
      rcases hoccb with hx | hx
      · rcases ho : st.laptopId with _ | v
        · rw [ho] at hx
          cases hx
        · simp [ho]
      · rcases ho : st.mobileId with _ | v
        · rw [ho] at hx
          cases hx
        · simp [ho]
    unfold releaseFromRooms
    rw [hr]
    show cleanupRoomIfEmpty (setRoom rooms code (clearSocket st sid)) code = rooms
    rw [hclear, hset]
    unfold cleanupRoomIfEmpty
    rw [hr]
    simp [hcond]
  · intro rooms code sid st hr hl hm
    rw [releaseFromRooms_at rooms code sid st hr]
    rw [if_pos (by simp [hl, hm])]
  · intro rooms code h
    unfold getRoomState
    rw [h]

theorem room_lifecycle_and_release_idempotent_witness :
    ((⟨some "A", none⟩ : RoomState).laptopId.isSome = true
      ∨ (⟨some "A", none⟩ : RoomState).mobileId.isSome = true)
    ∧ releaseFromRooms (runServer [Event.joinLaptop "A" (JsVal.str "R")]).rooms
        "R" "Z" = (runServer [Event.joinLaptop "A" (JsVal.str "R")]).rooms
    ∧ releaseFromRooms (runServer [Event.joinLaptop "A" (JsVal.str "R")]).rooms
        "R" "A" "R" = none
    ∧ (getRoomState initServer.rooms "FRESH1").1 = ⟨none, none⟩ :=
  ⟨room_lifecycle_and_release_idempotent.1
      [Event.joinLaptop "A" (JsVal.str "R")] "R" ⟨some "A", none⟩ (by decide),
   room_lifecycle_and_release_idempotent.2.2.1
      (runServer [Event.joinLaptop "A" (JsVal.str "R")]).rooms "R" "Z"
      ⟨some "A", none⟩ (by decide) (by decide) (by decide) (Or.inl rfl),
   room_lifecycle_and_release_idempotent.2.2.2.1
      (runServer [Event.joinLaptop "A" (JsVal.str "R")]).rooms "R" "A"
      ⟨some "A", none⟩ (by decide) (by decide) (by decide),
   room_lifecycle_and_release_idempotent.2.2.2.2
      initServer.rooms "FRESH1" (by decide)⟩

/-- C9 falsified at a whitespace-only code: validation (`!roomId`, typeof)
precedes normalization, so the truthy string consisting of one space passes
the guard, normalizes to the empty string, and creates and occupies a room
under the code `""`, binding the connection to it — it is not silently
ignored. -/
theorem invalid_join_counterexample :
    (runServer [Event.joinLaptop "S1" (JsVal.str " ")]).rooms ""
        = some ⟨some "S1", none⟩
    ∧ (runServer [Event.joinLaptop "S1" (JsVal.str " ")]).conns "S1"
        = ⟨some "", some Role.laptop⟩ :=
  ⟨by decide, by decide⟩

/-- C9 amended: a join whose room-code payload is the empty string or not a
string at all is silently ignored — the server state (rooms and bindings) is
unchanged and no message is emitted. Whitespace-only codes are not covered:
they pass the non-empty-string validation (which runs before trimming),
normalize to the empty string, and create and occupy a room under that
code. -/
theorem invalid_join_silently_ignored (s : ServerState) (sid : String)
    (role : Role) (p : JsVal)
    (h : p = JsVal.str "" ∨ ∀ c : String, p ≠ JsVal.str c) :
    join role sid p s = (s, []) := by
  rcases h with h | h
  · subst h
    simp [join]
  · rcases p with c | n | b | _ | _
    · exact absurd rfl (h c)
    · rfl
    · rfl
    · rfl
    · rfl

theorem invalid_join_silently_ignored_witness :
    join Role.laptop "S1" (JsVal.str "") initServer = (initServer, [])
    ∧ join Role.mobile "S2" JsVal.nullv initServer = (initServer, []) :=
  ⟨invalid_join_silently_ignored initServer "S1" Role.laptop (JsVal.str "")
      (Or.inl rfl),
   invalid_join_silently_ignored initServer "S2" Role.mobile JsVal.nullv
      (Or.inr (fun _ hc => JsVal.noConfusion hc))⟩

end CloneCam
